import Mathlib

/-!
Verification of the business-card rendering core (`src/bot.py`).

Shallow embedding of the card-rendering pipeline of `bot.py`:
theme catalog and resolution, the vCard payload builder, the QR encoding
step, logo handling, the shrink-to-fit text routine, the vertical gradient
row colors, and the `make_card` compositor.

Python strings are modelled as `List Char`; bytes as `List Nat`.
The two external image-library operations that the code relies on are
parameters of the embedding:
* `width : Str → Nat → Nat` models `draw.textlength(text, font=load_font(size))`;
* `decode : List Nat → Option Img` models `Image.open(BytesIO(bytes))`,
  returning `none` exactly when PIL would raise on undecodable bytes.

Bitmaps are modelled as the tree of construction operations applied to
them (`Img`), so that two renders are equal exactly when they perform the
same drawing operations with the same arguments.
-/

/-- Python strings, modelled as lists of characters. -/
abbrev Str := List Char

/-- Convenience: a Lean string literal as a `Str`. -/
def lit (s : String) : Str := s.toList

/-- An RGB color triple, as in the `THEMES` table of `bot.py` (components 0–255). -/
structure RGB where
  r : Nat
  g : Nat
  b : Nat
deriving DecidableEq, Repr

/-- A theme entry: `{"label": ..., "bg": [c1, c2], "accent": ..., "text": ...}`
(`bot.py` lines 21–28). -/
structure Theme where
  label : Str
  bg1 : RGB
  bg2 : RGB
  accent : RGB
  text : RGB
deriving DecidableEq, Repr

/-- The `THEMES` dict of `bot.py` (lines 21–28), as an association list
(Python dicts preserve insertion order). -/
def THEMES : List (Str × Theme) :=
  [ (lit ("ocean"),    ⟨lit ("🌊 Ocean"),    ⟨10,25,70⟩,  ⟨20,60,130⟩, ⟨80,180,255⟩,  ⟨255,255,255⟩⟩),
    (lit ("forest"),   ⟨lit ("🌿 Forest"),   ⟨10,35,15⟩,  ⟨25,85,40⟩,  ⟨80,220,120⟩,  ⟨255,255,255⟩⟩),
    (lit ("crimson"),  ⟨lit ("🔴 Crimson"),  ⟨70,10,10⟩,  ⟨160,25,25⟩, ⟨255,100,100⟩, ⟨255,255,255⟩⟩),
    (lit ("midnight"), ⟨lit ("🌙 Midnight"), ⟨8,8,25⟩,    ⟨20,20,55⟩,  ⟨140,140,255⟩, ⟨220,220,255⟩⟩),
    (lit ("gold"),     ⟨lit ("✨ Gold"),     ⟨50,35,5⟩,   ⟨110,80,15⟩, ⟨255,210,50⟩,  ⟨255,255,255⟩⟩),
    (lit ("rose"),     ⟨lit ("🌸 Rose"),     ⟨70,15,35⟩,  ⟨155,40,80⟩, ⟨255,140,170⟩, ⟨255,255,255⟩⟩) ]

/-- Python dict lookup `THEMES[k]`: `some` the entry if `k` is a key, else
`none` (a `KeyError` in Python). -/
def themeLookup (k : Str) : Option Theme :=
  (THEMES.find? (fun p => p.1 == k)).map (fun p => p.2)

/-- The contact data dict assembled by the conversation handlers and passed
to `make_card` (`bot.py`: keys `first`, `last`, `phone`, `email`, `org`,
`title`, `theme`, `logo_bytes`).  `org` and `title` are always-present
strings where `""` means "skipped"; `theme` may be absent from the dict
(`data.get("theme", "ocean")`), hence an `Option`; `logo_bytes` is either
`None` or raw bytes. -/
structure ContactData where
  first : Str
  last : Str
  phone : Str
  email : Str
  org : Str
  title : Str
  theme : Option Str
  logo_bytes : Option (List Nat)
deriving DecidableEq, Repr

/-! ## Line joining and splitting

`"\n".join(...)` and the line structure of the vCard payload.  `splitOnChar`
is the model of Python's `str.split(sep)` for a one-character separator
(used by a consumer parsing the payload; note `"".split(c) == [""]`). -/

/-- Python `sep.join(lines)` for a one-character separator (a `Str` is a list of
characters, so the separator is a single `Char`). -/
def joinLines (sep : Char) : List Str → Str
  | [] => []
  | [l] => l
  | l :: ls => l ++ sep :: joinLines sep ls

/-- Python `s.split(sep)` for a one-character separator. -/
def splitOnChar (sep : Char) : Str → List Str
  | [] => [[]]
  | c :: cs =>
    if c = sep then [] :: splitOnChar sep cs
    else
      match splitOnChar sep cs with
      | [] => [[c]]
      | l :: ls => (c :: l) :: ls

/-! ## The vCard payload (`bot.py` lines 96–105)

```python
vcard = "\n".join(filter(None, [
    "BEGIN:VCARD","VERSION:3.0",
    f"N:{data['last']};{data['first']};;;",
    f"FN:{data['first']} {data['last']}",
    f"ORG:{data['org']}"     if data.get("org")   else "",
    f"TITLE:{data['title']}" if data.get("title") else "",
    f"TEL;TYPE=CELL:{data['phone']}",
    f"EMAIL:{data['email']}",
    "END:VCARD"
]))
```
`filter(None, ...)` drops the falsy (empty) strings. -/

/-- The list of candidate payload lines before `filter(None, ...)`. -/
def vcardRawLines (d : ContactData) : List Str :=
  [ lit ("BEGIN:VCARD"), lit ("VERSION:3.0"),
    lit ("N:") ++ d.last ++ lit (";") ++ d.first ++ lit (";;;"),
    lit ("FN:") ++ d.first ++ lit (" ") ++ d.last,
    if d.org ≠ [] then lit ("ORG:") ++ d.org else [],
    if d.title ≠ [] then lit ("TITLE:") ++ d.title else [],
    lit ("TEL;TYPE=CELL:") ++ d.phone,
    lit ("EMAIL:") ++ d.email,
    lit ("END:VCARD") ]

/-- The payload lines: `filter(None, ...)` keeps the non-empty strings. -/
def vcardLines (d : ContactData) : List Str :=
  (vcardRawLines d).filter (fun l => l ≠ [])

/-- The vCard payload handed to the QR encoder: `"\n".join(...)`. -/
def vcardPayload (d : ContactData) : Str :=
  joinLines ('\n') (vcardLines d)

/-! ## A consumer parsing the payload

The round-trip consumer of spec §4.2: split the payload into lines, read
`first`/`last` from the structured-name (`N:`) line, `phone` from the
`TEL;TYPE=CELL:` line, `email` from the `EMAIL:` line, and the optional
`org`/`title` from their lines when present. -/

/-- Returns `some` the rest of `s` after the prefix `p`, or `none` if `p` is not a
prefix of `s`. -/
def dropPrefixStr : Str → Str → Option Str
  | [], s => some s
  | _ :: _, [] => none
  | a :: p, b :: s => if a = b then dropPrefixStr p s else none

/-- The first line starting with prefix `p`, with the prefix removed. -/
def findLine (p : Str) : List Str → Option Str
  | [] => none
  | l :: ls =>
    match dropPrefixStr p l with
    | some r => some r
    | none => findLine p ls

/-- The fields recovered by a consumer of the payload.  `org`/`title` are
`none` when their line is absent. -/
structure ParsedVcard where
  first : Str
  last : Str
  phone : Str
  email : Str
  org : Option Str
  title : Option Str
deriving DecidableEq, Repr

/-- Parse a vCard payload produced by `make_card` back into its fields. -/
def parseVcard (s : Str) : Option ParsedVcard :=
  let ls := splitOnChar ('\n') s
  match findLine (lit ("N:")) ls, findLine (lit ("TEL;TYPE=CELL:")) ls,
        findLine (lit ("EMAIL:")) ls with
  | some n, some tel, some em =>
    match splitOnChar (';') n with
    | last :: first :: _ =>
      some ⟨first, last, tel, em, findLine (lit ("ORG:")) ls,
            findLine (lit ("TITLE:")) ls⟩
    | _ => none
  | _, _, _ => none

/-! ## The upstream validators (`bot.py` lines 31–38)

The dialogue collaborator validates `first`/`last`/`phone`/`email` before
they reach `make_card`.  These are embedded only to state which records
count as "pre-validated". -/

/-- Python's default `str.strip()` whitespace set (ASCII part). -/
def pyIsSpace (c : Char) : Bool :=
  c = ' ' || c = '\t' || c = '\n' || c = '\r' || c = (Char.ofNat 11) || c = (Char.ofNat 12)

/-- Python `s.strip()`. -/
def pyStrip (s : Str) : Str :=
  ((s.dropWhile pyIsSpace).reverse.dropWhile pyIsSpace).reverse

/-- A name character per the regex class `[A-Za-z ]`. -/
def isNameChar (c : Char) : Bool :=
  (('A' ≤ c && c ≤ 'Z') || ('a' ≤ c && c ≤ 'z') || c = ' ')

/-- Validator `valid_name`: `re.fullmatch(r"[A-Za-z ]{2,40}", s.strip())`. -/
def valid_name (s : Str) : Bool :=
  let t := pyStrip s
  2 ≤ t.length && t.length ≤ 40 && t.all isNameChar

/-- Validator `valid_phone`: strip spaces and dashes, then
`re.fullmatch(r"(\+91)?[6-9][0-9]{9}", ...)`. -/
def valid_phone (s : Str) : Bool :=
  let t := s.filter (fun c => !(c = ' ' || c = '-'))
  let core := match t with
    | '+' :: '9' :: '1' :: rest => rest
    | rest => rest
  core.length = 10 &&
    (match core with
     | c :: _ => '6' ≤ c && c ≤ '9'
     | [] => false) &&
    core.all (fun c => '0' ≤ c && c ≤ '9')

/-- A character allowed by the regex class `[^@\s]`. -/
def isEmailAtomChar (c : Char) : Bool := !(c = '@' || pyIsSpace c)

/-- Validator `valid_email`: `re.fullmatch(r"[^@\s]+@[^@\s]+\.[^@\s]+", s)`: exactly
one `@`, no whitespace, a non-empty local part, and a dot in the domain
with non-empty text on both sides. -/
def valid_email (s : Str) : Bool :=
  let localPart := s.takeWhile (fun c => c ≠ '@')
  let rest := s.drop (localPart.length + 1)
  localPart ≠ [] && s.length ≠ localPart.length && rest.all isEmailAtomChar &&
    localPart.all isEmailAtomChar &&
    ((rest.drop 1).dropLast.contains '.')

/-! ## Shrink-to-fit text (`draw_text_fit`, `bot.py` lines 53–61)

```python
def draw_text_fit(draw, xy, text, max_width, start_size, color):
    size = start_size
    while size > 18:
        font = load_font(size)
        if draw.textlength(text, font=font) <= max_width:
            break
        size -= 3
    draw.text(xy, text, font=load_font(size), fill=color)
```
The loop is embedded with an explicit fuel argument to make the function
kernel-computable; `fuel = size` always suffices because each iteration
requires `18 < size` and decreases `size` by 3 (`fitSizeAux_fuel` below
shows the result is fuel-independent from there on). -/

/-- One measured width, as `draw.textlength(text, font=load_font(size))`. -/
abbrev WidthFn := Str → Nat → Nat

/-- The `while` loop of `draw_text_fit`, with fuel. -/
def fitSizeAux (width : WidthFn) (text : Str) (max_width : Nat) :
    Nat → Nat → Nat
  | 0, size => size
  | fuel + 1, size =>
    if 18 < size then
      if width text size ≤ max_width then size
      else fitSizeAux width text max_width fuel (size - 3)
    else size

/-- The size at which `draw_text_fit` finally draws. -/
def fitSize (width : WidthFn) (text : Str) (max_width start_size : Nat) : Nat :=
  fitSizeAux width text max_width start_size start_size

/-! ## Bitmaps

A bitmap is modelled as the tree of construction operations applied to it,
so two bitmaps are equal exactly when they were built by the same drawing
operations with the same arguments.  Pixel rasters are not re-implemented;
the per-row colors of the gradient are modelled separately (`gradChannel`),
and an image's logical size is recovered by `Img.size`. -/

/-- Bitmap construction operations (the PIL calls made by `make_card`). -/
inductive Img where
  /-- Call `Image.new("RGB"/"RGBA", (w, h), color)` (RGB color + alpha). -/
  | new (w h : Nat) (r g b a : Nat)
  /-- The `W×H` canvas after the per-row gradient loop (lines 81–85);
  row `y` is filled with `gradColor c1 c2 h y`. -/
  | gradient (w h : Nat) (c1 c2 : RGB)
  /-- Composite (`alpha_composite`) of the three fixed soft accent circles
  (centers/radii/alphas are the constants of line 90) over `base`. -/
  | overlayCircles (base : Img) (accent : RGB)
  /-- The `qrcode` rendering of `payload` at error-correction H, box 10,
  border 2, with foreground `fg` and white background (lines 106–110). -/
  | qrRender (payload : Str) (fg : RGB)
  /-- Call `img.resize((w, h), Image.LANCZOS)`. -/
  | resize (i : Img) (w h : Nat)
  /-- Result of `Image.open(BytesIO(bytes)).convert("RGBA")` for caller-supplied
  logo bytes (the decoded pixel content is owned by the `decode`
  parameter; see `get_logo_image`). -/
  | decoded (bytes : List Nat)
  /-- Call `ImageOps.fit(img, (w, h), Image.LANCZOS)`. -/
  | fitTo (i : Img) (w h : Nat)
  /-- Call `base.paste(ov, (x, y))`. -/
  | paste (base ov : Img) (x y : Nat)
  /-- Call `base.paste(ov, (x, y), mask)` with a full circular mask of
  diameter `d` (an `"L"` image with an ellipse filled 255). -/
  | pasteMasked (base ov : Img) (x y d : Nat)
  /-- Call `draw.text((x, y), text, font=load_font(size), fill=color)`;
  `anchorMT` records the caption's `anchor="mt"`. -/
  | drawText (base : Img) (x y : Nat) (text : Str) (size : Nat)
      (color : RGB) (anchorMT : Bool)
  /-- Call `draw.rectangle([x0, y0, x1, y1], fill=color)`. -/
  | rect (base : Img) (x0 y0 x1 y1 : Nat) (color : RGB)
deriving DecidableEq, Repr

/-- The logical pixel size of a bitmap.  The native module-grid size of a
fresh QR rendering and the caller-supplied logo dimensions are not
modelled (both are immediately forced to fixed sizes by `resize` /
`ImageOps.fit` before being used). -/
def Img.size : Img → Nat × Nat
  | .new w h _ _ _ _ => (w, h)
  | .gradient w h _ _ => (w, h)
  | .overlayCircles base _ => base.size
  | .qrRender _ _ => (0, 0)
  | .resize _ w h => (w, h)
  | .decoded _ => (0, 0)
  | .fitTo _ w h => (w, h)
  | .paste base _ _ _ => base.size
  | .pasteMasked base _ _ _ _ => base.size
  | .drawText base _ _ _ _ _ _ => base.size
  | .rect base _ _ _ _ _ => base.size

/-- Embeds `draw_text_fit`: measure/shrink, then draw exactly once at the
resolved size. -/
def draw_text_fit (width : WidthFn) (base : Img) (x y : Nat) (text : Str)
    (max_width start_size : Nat) (color : RGB) : Img :=
  Img.drawText base x y text (fitSize width text max_width start_size) color false

/-! ## Gradient row colors (`bot.py` lines 83–85)

```python
for y in range(H):
    t = y / H
    draw.line([(0,y),(W,y)], fill=tuple(int(c1[i]+(c2[i]-c1[i])*t) for i in range(3)))
```
For channels in `[0, 255]` and `0 ≤ y < H` the value
`c1[i] + (c2[i]-c1[i])*(y/H)` is non-negative, so Python's `int(...)`
(truncation toward zero) is the floor, i.e. `a + ((b-a)*y).fdiv H`. -/

/-- One channel of the row fill color: `int(c1[i] + (c2[i]-c1[i])*(y/H))`. -/
def gradChannel (a b y h : Nat) : Int :=
  (a : Int) + Int.fdiv (((b : Int) - (a : Int)) * (y : Int)) (h : Int)

/-- The full row fill color at row `y`. -/
def gradColor (c1 c2 : RGB) (h y : Nat) : Int × Int × Int :=
  (gradChannel c1.r c2.r y h, gradChannel c1.g c2.g y h, gradChannel c1.b c2.b y h)

/-! ## Logo handling (`get_logo_image`, lines 63–71)

```python
def get_logo_image(logo_bytes):
    if not logo_bytes:
        return None
    return Image.open(BytesIO(logo_bytes)).convert("RGBA")
```
`decode` models `Image.open`: `none` when PIL raises on the bytes
(`UnidentifiedImageError` or similar); such an exception propagates out of
`get_logo_image` (there is no handler), modelled as `Except.error`.
`not logo_bytes` is true for `None` and for empty bytes. -/

/-- Failures `make_card` can raise. -/
inductive RenderErr where
  /-- Python `KeyError` from `THEMES[...]` on an unknown key (line 76). -/
  | keyError
  /-- An image-decoding exception from `Image.open` (line 71). -/
  | decodeError
  /-- Python `DataOverflowError` from `qr.make(fit=True)` when the payload
  exceeds the QR capacity (line 107). -/
  | encodingError
deriving DecidableEq, Repr

/-- Embeds `get_logo_image`, with the decoder as a parameter. -/
def get_logo_image (decode : List Nat → Option Img)
    (logo_bytes : Option (List Nat)) : Except RenderErr (Option Img) :=
  match logo_bytes with
  | none => Except.ok none
  | some bs =>
    if bs = [] then Except.ok none
    else
      match decode bs with
      | some img => Except.ok (some img)
      | none => Except.error RenderErr.decodeError

/-- Embedding the logo in the QR center (`bot.py` lines 117–129): crop the
logo to a square of 22% of the QR side, punch a white circular pad of that
size plus 16, then paste the circularly-masked logo at the exact center. -/
def embedLogoInQr (qr_img logo : Img) (qrn : Nat) : Img :=
  let ls := qrn * 22 / 100
  let lg := Img.fitTo logo ls ls
  let bs := ls + 16
  let qi1 := Img.pasteMasked qr_img (Img.new bs bs 255 255 255 255)
    ((qrn - bs) / 2) ((qrn - bs) / 2) bs
  Img.pasteMasked qi1 lg ((qrn - ls) / 2) ((qrn - ls) / 2) ls

/-! ## PNG output

`card.save(out, "PNG")` is modelled down to the part of the container the
claims observe: the mandatory 8-byte PNG signature followed by the IHDR
width/height fields (4-byte big-endian each); the pixel payload of the
file is not modelled. -/

/-- A 32-bit big-endian encoding of `n`. -/
def be32 (n : Nat) : List Nat :=
  [n / 2 ^ 24 % 256, n / 2 ^ 16 % 256, n / 2 ^ 8 % 256, n % 256]

/-- The fixed 8-byte PNG file signature. -/
def pngSig : List Nat := [137, 80, 78, 71, 13, 10, 26, 10]

/-- The encoded PNG stream of a bitmap (signature + header dimensions). -/
def pngEncode (img : Img) : List Nat :=
  pngSig ++ be32 img.size.1 ++ be32 img.size.2

/-- Decoding the raster dimensions back out of an encoded PNG stream. -/
def pngDims (bytes : List Nat) : Option (Nat × Nat) :=
  if bytes.take 8 = pngSig then
    match bytes.drop 8 with
    | [a, b, c, d, e, f, g, h] =>
      some (((a * 256 + b) * 256 + c) * 256 + d,
            ((e * 256 + f) * 256 + g) * 256 + h)
    | _ => none
  else none

/-! ## The card compositor (`make_card`, `bot.py` lines 74–177) -/

/-- Byte capacity of the largest QR symbol (version 40) at error-correction
level H; `qr.make(fit=True)` raises `DataOverflowError` beyond it. -/
def QR_CAPACITY_H : Nat := 1273

/-- The result of a successful render.  `image`/`bytes` are the returned
artifact; the remaining fields expose the geometry the layout computed
(the local variables of `make_card`), so the claims can speak about it:
`qr_img` is the code bitmap after the logo-embed step (line 129),
`logoPasted` records whether the corner-logo branch ran (line 144),
`tx`/`maxW` are the text start and the shrink-to-fit width budget after
the optional narrowing (lines 143–150), `nameSize` the resolved name font
size, `accentX0..accentY1` the separator rectangle (line 156), and
`yStart` the vertical offset of the phone row (line 166). -/
structure Card where
  width : Nat
  height : Nat
  image : Img
  bytes : List Nat
  payload : Str
  qr_img : Img
  logoPasted : Bool
  tx : Nat
  maxW : Nat
  nameSize : Nat
  accentX0 : Nat
  accentY0 : Nat
  accentX1 : Nat
  accentY1 : Nat
  yStart : Nat
deriving DecidableEq, Repr

/-- The straight-line body of `make_card` after the failure points (theme
resolved, payload within capacity, logo decoded): lines 75–177. -/
def buildCard (width : WidthFn) (data : ContactData) (theme : Theme)
    (logo_pil : Option Img) : Card :=
  let W : Nat := 1200
  let H : Nat := 660
  let c1 := theme.bg1
  let c2 := theme.bg2
  let accent := theme.accent
  let tcol := theme.text
  -- gradient background, then translucent circles flattened back to RGB
  let card1 := Img.overlayCircles (Img.gradient W H c1 c2) accent
  -- QR code of the vCard payload, resized to 400×400
  let vcard := vcardPayload data
  let qrn : Nat := 400
  let qr0 := Img.resize (Img.qrRender vcard accent) qrn qrn
  -- embed logo inside the QR center
  let qr_img := match logo_pil with
    | some lp => embedLogoInQr qr0 lp qrn
    | none => qr0
  -- paste QR with a white border, caption beneath
  let pad : Nat := 14
  let qr_x := W - qrn - 65
  let qr_y := (H - qrn) / 2
  let card2 := Img.paste card1
    (Img.new (qrn + pad * 2) (qrn + pad * 2) 255 255 255 255)
    (qr_x - pad) (qr_y - pad)
  let card3 := Img.paste card2 qr_img qr_x qr_y
  let card4 := Img.drawText card3 (qr_x + qrn / 2) (qr_y + qrn + 8)
    (lit ("Scan to Save")) 24 tcol true
  -- left text column
  let LX : Nat := 60
  let MAX0 := qr_x - LX - 30
  -- optional corner logo: pasted circularly masked, narrowing the column
  let card5 := match logo_pil with
    | some lp => Img.pasteMasked card4 (Img.fitTo lp 120 120) LX 60 120
    | none => card4
  let tx := match logo_pil with
    | some _ => LX + 140
    | none => LX
  let MAXw := match logo_pil with
    | some _ => MAX0 - 140
    | none => MAX0
  -- name
  let nameText := data.first ++ lit (" ") ++ data.last
  let card6 := draw_text_fit width card5 tx 65 nameText MAXw 66 tcol
  -- accent line
  let ax1 := LX + MAXw + (if tx = LX then 140 else 0)
  let card7 := Img.rect card6 LX 210 ax1 213 accent
  -- title + org, advancing the cursor only for present fields
  let y0 : Nat := 228
  let card8 := if data.title ≠ [] then
      draw_text_fit width card7 LX y0 data.title (MAXw + 140) 36 accent
    else card7
  let y1 := if data.title ≠ [] then y0 + 48 else y0
  let card9 := if data.org ≠ [] then
      draw_text_fit width card8 LX y1 data.org (MAXw + 140) 34 tcol
    else card8
  let y2 := if data.org ≠ [] then y1 + 50 else y1
  -- phone & email rows, anchored at a minimum vertical offset
  let yP := max (y2 + 10) 335
  let card10 := Img.drawText card9 LX yP (lit ("📱")) 32 accent false
  let card11 := draw_text_fit width card10 (LX + 52) (yP + 4) data.phone
    (MAXw + 88) 32 tcol
  let card12 := Img.drawText card11 LX (yP + 54) (lit ("📧")) 32 accent false
  let card13 := draw_text_fit width card12 (LX + 52) (yP + 54 + 4) data.email
    (MAXw + 88) 32 tcol
  -- bottom accent strip, then save as PNG
  let card14 := Img.rect card13 0 (H - 6) W H accent
  { width := W, height := H, image := card14, bytes := pngEncode card14,
    payload := vcard, qr_img := qr_img, logoPasted := logo_pil.isSome,
    tx := tx, maxW := MAXw,
    nameSize := fitSize width nameText MAXw 66,
    accentX0 := LX, accentY0 := 210, accentX1 := ax1, accentY1 := 213,
    yStart := yP }

/-- Embeds `make_card(data)`, with the two library operations as parameters.
The failure points occur in source order: the theme lookup (line 76)
raises `KeyError` on an unknown key, `qr.make(fit=True)` (line 107)
raises on an over-capacity payload, and `get_logo_image` (line 116)
raises on undecodable logo bytes. -/
def make_card (width : WidthFn) (decode : List Nat → Option Img)
    (data : ContactData) : Except RenderErr Card :=
  match themeLookup ((data.theme).getD (lit ("ocean"))) with
  | none => Except.error RenderErr.keyError
  | some theme =>
    if (vcardPayload data).length ≤ QR_CAPACITY_H then
      match get_logo_image decode data.logo_bytes with
      | Except.error e => Except.error e
      | Except.ok logo_pil => Except.ok (buildCard width data theme logo_pil)
    else Except.error RenderErr.encodingError

/-! ## Concrete instances used by witnesses and counterexamples -/

/-- A measuring function under which every text fits at every size. -/
def widthNarrow : WidthFn := fun _ _ => 1

/-- A measuring function under which no text ever fits a 645px budget. -/
def widthHuge : WidthFn := fun _ _ => 100000

/-- A decoder that succeeds on any bytes (well-formed logo images). -/
def decodeOk (bs : List Nat) : Option Img := some (Img.decoded bs)

/-- A decoder that fails on any bytes (corrupt logo data). -/
def decodeFail (_ : List Nat) : Option Img := none

/-- The spec §8 scenario record: Ada Lovelace, ocean theme, no logo. -/
def recAda : ContactData :=
  { first := lit ("Ada"), last := lit ("Lovelace"),
    phone := lit ("+919876543210"), email := lit ("ada@example.com"),
    org := [], title := [], theme := some (lit ("ocean")), logo_bytes := none }

/-- The same record with an unknown theme id set. -/
def recUnknownTheme : ContactData := { recAda with theme := some (lit ("sparkle")) }

/-- The same record with the theme key absent. -/
def recNoTheme : ContactData := { recAda with theme := none }

/-- The same record with non-empty (corrupt) logo bytes. -/
def recBadLogo : ContactData := { recAda with logo_bytes := some [1, 2, 3] }

/-- The same record with decodable logo bytes, org and title present. -/
def recFull : ContactData :=
  { recAda with
    org := lit ("Analytical Engines"),
    title := lit ("Mathematician"),
    logo_bytes := some [10, 20, 30] }

/-- A record whose title smuggles a newline and a fake `ORG:` line into the
payload (the upstream dialogue does not validate `org`/`title` content). -/
def recInjected : ContactData :=
  { recAda with title := lit ("x") ++ '\n' :: lit ("ORG:hack") }

/-- A pre-validated record whose (syntactically valid) email is so long
that the payload exceeds the QR capacity. -/
def recOverflow : ContactData :=
  { recAda with email := lit ("a@") ++ List.replicate 1200 'b' ++ lit (".cc") }

/-- The "ocean" entry of `THEMES` (the designated default). -/
def oceanTheme : Theme :=
  ⟨lit ("🌊 Ocean"), ⟨10,25,70⟩, ⟨20,60,130⟩, ⟨80,180,255⟩, ⟨255,255,255⟩⟩

/-- Asserts `s` is an element of the descending size sequence
`start, start-3, start-6, ...` tried by `draw_text_fit`. -/
def inSeq (start s : Nat) : Prop := ∃ k, start = s + 3 * k

/-! # Theorems -/

/-! ## Character-list forms of the fixed payload strings -/

theorem lit_nl : lit ("N:") = ['N', ':'] := rfl

theorem lit_semi : lit (";") = [';'] := rfl

theorem lit_semi3 : lit (";;;") = [';', ';', ';'] := rfl

theorem lit_sp : lit (" ") = [' '] := rfl

theorem lit_fn : lit ("FN:") = ['F', 'N', ':'] := rfl

theorem lit_begin : lit ("BEGIN:VCARD") =
    ['B', 'E', 'G', 'I', 'N', ':', 'V', 'C', 'A', 'R', 'D'] := rfl

theorem lit_version : lit ("VERSION:3.0") =
    ['V', 'E', 'R', 'S', 'I', 'O', 'N', ':', '3', '.', '0'] := rfl

theorem lit_org : lit ("ORG:") = ['O', 'R', 'G', ':'] := rfl

theorem lit_title : lit ("TITLE:") = ['T', 'I', 'T', 'L', 'E', ':'] := rfl

theorem lit_tel : lit ("TEL;TYPE=CELL:") =
    ['T', 'E', 'L', ';', 'T', 'Y', 'P', 'E', '=', 'C', 'E', 'L', 'L', ':'] := rfl

theorem lit_email : lit ("EMAIL:") = ['E', 'M', 'A', 'I', 'L', ':'] := rfl

theorem lit_end : lit ("END:VCARD") =
    ['E', 'N', 'D', ':', 'V', 'C', 'A', 'R', 'D'] := rfl

/-! ## Splitting and joining lines -/

theorem splitOnChar_of_not_mem (sep : Char) (l : Str) (h : sep ∉ l) :
    splitOnChar sep l = [l] := by
  induction l with
  | nil => rfl
  | cons c cs ih =>
    have hc : ¬ c = sep := fun hh => h (hh ▸ List.mem_cons_self c cs)
    have hcs : sep ∉ cs := fun hh => h (List.mem_cons_of_mem c hh)
    simp only [splitOnChar, if_neg hc, ih hcs]

theorem splitOnChar_append (sep : Char) (l rest : Str) (h : sep ∉ l) :
    splitOnChar sep (l ++ sep :: rest) = l :: splitOnChar sep rest := by
  induction l with
  | nil =>
    simp only [List.nil_append, splitOnChar, if_pos rfl, if_true]
  | cons c cs ih =>
    have hc : ¬ c = sep := fun hh => h (hh ▸ List.mem_cons_self c cs)
    have hcs : sep ∉ cs := fun hh => h (List.mem_cons_of_mem c hh)
    simp only [List.cons_append, splitOnChar, if_neg hc, List.append_eq, ih hcs]

theorem splitOnChar_joinLines (sep : Char) (ls : List Str) (h0 : ls ≠ [])
    (h : ∀ l ∈ ls, sep ∉ l) : splitOnChar sep (joinLines sep ls) = ls := by
  induction ls with
  | nil => exact absurd rfl h0
  | cons l ls ih =>
    cases ls with
    | nil =>
      simp only [joinLines]
      exact splitOnChar_of_not_mem sep l (h l (List.mem_cons_self l []))
    | cons l2 ls2 =>
      have h1 : sep ∉ l := h l (List.mem_cons_self _ _)
      have h2 : ∀ x ∈ l2 :: ls2, sep ∉ x := fun x hx =>
        h x (List.mem_cons_of_mem l hx)
      simp only [joinLines, splitOnChar_append sep l _ h1,
        ih (by simp) h2]

theorem dropPrefixStr_append (p s : Str) :
    dropPrefixStr p (p ++ s) = some s := by
  induction p with
  | nil => rfl
  | cons a p ih =>
    simp only [List.cons_append, dropPrefixStr, if_pos rfl, if_true,
      List.append_eq, ih]

/-! ## The shrink-to-fit loop -/

/-- The fuel argument of `fitSizeAux` is irrelevant once it is at least
`size`: each loop iteration requires `18 < size` and decreases `size`
by 3, so `size` iterations always suffice. -/
theorem fitSizeAux_fuel (w : WidthFn) (t : Str) (m : Nat) :
    ∀ f1 f2 size, size ≤ f1 → size ≤ f2 →
      fitSizeAux w t m f1 size = fitSizeAux w t m f2 size := by
  intro f1
  induction f1 with
  | zero =>
    intro f2 size h1 h2
    have hs : size = 0 := Nat.le_zero.mp h1
    subst hs
    cases f2 with
    | zero => rfl
    | succ f2 => simp [fitSizeAux]
  | succ f ih =>
    intro f2 size h1 h2
    cases f2 with
    | zero =>
      have hs : size = 0 := Nat.le_zero.mp h2
      subst hs
      simp [fitSizeAux]
    | succ f2 =>
      simp only [fitSizeAux]
      by_cases h18 : 18 < size
      · rw [if_pos h18, if_pos h18]
        by_cases hw : w t size ≤ m
        · rw [if_pos hw, if_pos hw]
        · rw [if_neg hw, if_neg hw]
          exact ih f2 (size - 3) (by omega) (by omega)
      · rw [if_neg h18, if_neg h18]

/-- Function `fitSize` satisfies the defining equation of the `while` loop of
`draw_text_fit` (lines 55–60). -/
theorem fitSize_unfold (w : WidthFn) (t : Str) (m s : Nat) :
    fitSize w t m s =
      if 18 < s then (if w t s ≤ m then s else fitSize w t m (s - 3))
      else s := by
  cases s with
  | zero => rfl
  | succ k =>
    show fitSizeAux w t m (k + 1) (k + 1) = _
    simp only [fitSizeAux]
    by_cases h18 : 18 < k + 1
    · rw [if_pos h18, if_pos h18]
      by_cases hw : w t (k + 1) ≤ m
      · rw [if_pos hw, if_pos hw]
      · rw [if_neg hw, if_neg hw]
        exact fitSizeAux_fuel w t m k (k + 1 - 3) (k + 1 - 3) (by omega) (by omega)
    · rw [if_neg h18, if_neg h18]

/-- Behavior of the resolved size for any start value above 15: it is an
element of the descending sequence; it never drops below 16; when some
sequence element above 18 fits, the resolved size is the largest such
element (and fits); and the resolved size fits unless it is at or below
the floor. -/
theorem fitSize_spec (w : WidthFn) (t : Str) (m : Nat) :
    ∀ start, 15 < start →
      inSeq start (fitSize w t m start) ∧
      15 < fitSize w t m start ∧
      ((∃ s, inSeq start s ∧ 18 < s ∧ w t s ≤ m) →
        18 < fitSize w t m start ∧ w t (fitSize w t m start) ≤ m ∧
        ∀ s, inSeq start s → 18 < s → w t s ≤ m → s ≤ fitSize w t m start) ∧
      (w t (fitSize w t m start) ≤ m ∨ fitSize w t m start ≤ 18) := by
  intro start
  induction start using Nat.strong_induction_on with
  | _ start ih =>
    intro h15
    rw [fitSize_unfold]
    by_cases h18 : 18 < start
    · by_cases hw : w t start ≤ m
      · rw [if_pos h18, if_pos hw]
        refine ⟨⟨0, by omega⟩, by omega, ?_, Or.inl hw⟩
        intro _
        refine ⟨h18, hw, fun s hs h18s hws => ?_⟩
        obtain ⟨k, hk⟩ := hs
        omega
      · rw [if_pos h18, if_neg hw]
        obtain ⟨hseq, hgt, hmax, hfit⟩ := ih (start - 3) (by omega) (by omega)
        refine ⟨?_, hgt, ?_, hfit⟩
        · obtain ⟨k, hk⟩ := hseq
          exact ⟨k + 1, by omega⟩
        · rintro ⟨s, ⟨k, hk⟩, h18s, hws⟩
          have hk0 : k ≠ 0 := by
            intro h0
            subst h0
            have hss : s = start := by omega
            exact hw (hss ▸ hws)
          obtain ⟨ha, hb, hc⟩ := hmax ⟨s, ⟨k - 1, by omega⟩, h18s, hws⟩
          refine ⟨ha, hb, fun s2 hs2 h18s2 hws2 => ?_⟩
          obtain ⟨k2, hk2⟩ := hs2
          have hk20 : k2 ≠ 0 := by
            intro h0
            subst h0
            have hss : s2 = start := by omega
            exact hw (hss ▸ hws2)
          exact hc s2 ⟨k2 - 1, by omega⟩ h18s2 hws2
    · rw [if_neg h18]
      refine ⟨⟨0, by omega⟩, h15, ?_, Or.inr (by omega)⟩
      rintro ⟨s, ⟨k, hk⟩, h18s, _⟩
      omega

/-- C5 (amended).  For `startSize ≥ 18`, `draw_text_fit` draws the text
exactly once, at a size resolved from the descending sequence
`startSize, startSize-3, startSize-6, ...`; when some sequence element
above the floor 18 fits, the resolved size is the largest fitting such
element; the resolved size never goes below 16 — but, contrary to the
claim, it does go below the floor 18 (to 17 or 16) when nothing above
the floor fits and `startSize` is not divisible by 3; and the drawn text
is never wider than `max_width` unless the resolved size is at or below
the floor. -/
theorem draw_text_fit_resolved (w : WidthFn) (base : Img) (x y : Nat)
    (t : Str) (m start : Nat) (color : RGB) (h : 18 ≤ start) :
    draw_text_fit w base x y t m start color =
      Img.drawText base x y t (fitSize w t m start) color false ∧
    inSeq start (fitSize w t m start) ∧
    15 < fitSize w t m start ∧
    ((∃ s, inSeq start s ∧ 18 < s ∧ w t s ≤ m) →
      18 < fitSize w t m start ∧ w t (fitSize w t m start) ≤ m ∧
      ∀ s, inSeq start s → 18 < s → w t s ≤ m → s ≤ fitSize w t m start) ∧
    (w t (fitSize w t m start) ≤ m ∨ fitSize w t m start ≤ 18) :=
  ⟨rfl, fitSize_spec w t m start (by omega)⟩

/-- Witness for C5's amended theorem at a concrete input (start size 66,
a measuring function under which everything fits). -/
theorem draw_text_fit_resolved_witness :
    draw_text_fit widthNarrow (Img.gradient 1200 660 ⟨10,25,70⟩ ⟨20,60,130⟩)
        60 65 (lit ("Ada")) 645 66 ⟨255,255,255⟩ =
      Img.drawText (Img.gradient 1200 660 ⟨10,25,70⟩ ⟨20,60,130⟩) 60 65
        (lit ("Ada")) (fitSize widthNarrow (lit ("Ada")) 645 66)
        ⟨255,255,255⟩ false ∧
    15 < fitSize widthNarrow (lit ("Ada")) 645 66 :=
  ⟨(draw_text_fit_resolved widthNarrow
      (Img.gradient 1200 660 ⟨10,25,70⟩ ⟨20,60,130⟩) 60 65 (lit ("Ada"))
      645 66 ⟨255,255,255⟩ (by decide)).1,
   (draw_text_fit_resolved widthNarrow
      (Img.gradient 1200 660 ⟨10,25,70⟩ ⟨20,60,130⟩) 60 65 (lit ("Ada"))
      645 66 ⟨255,255,255⟩ (by decide)).2.2.1⟩

/-- Counterexample to C5 as stated: with `startSize = 20 ≥ 18` and a text
that fits at no size, the resolved size is 17, strictly below the claimed
floor of 18, and the draw happens at size 17. -/
theorem draw_text_fit_below_floor_cex :
    18 ≤ 20 ∧ fitSize widthHuge (lit ("Ada")) 645 20 = 17 ∧ 17 < 18 ∧
    draw_text_fit widthHuge (Img.gradient 1200 660 ⟨10,25,70⟩ ⟨20,60,130⟩)
        60 65 (lit ("Ada")) 645 20 ⟨255,255,255⟩ =
      Img.drawText (Img.gradient 1200 660 ⟨10,25,70⟩ ⟨20,60,130⟩) 60 65
        (lit ("Ada")) 17 ⟨255,255,255⟩ false :=
  ⟨by decide, by decide, by decide, rfl⟩

/-- C10 (confirmed).  When `start_size ≤ 18` the `while` loop never runs:
no width is measured (the result does not depend on the measuring
function or the budget) and the text is drawn exactly once at
`start_size` itself. -/
theorem draw_text_fit_at_floor (w : WidthFn) (base : Img) (x y : Nat)
    (t : Str) (m start : Nat) (color : RGB) (h : start ≤ 18) :
    draw_text_fit w base x y t m start color =
      Img.drawText base x y t start color false := by
  unfold draw_text_fit
  rw [fitSize_unfold, if_neg (by omega)]

/-! ## Inverting a successful render -/

/-- A successful `make_card` means: the theme lookup succeeded, the payload
was within capacity, the logo step did not raise, and the result is the
straight-line composition `buildCard`. -/
theorem make_card_ok_elim {w : WidthFn} {d : List Nat → Option Img}
    {r : ContactData} {c : Card} (h : make_card w d r = Except.ok c) :
    ∃ th lp, themeLookup ((r.theme).getD (lit ("ocean"))) = some th ∧
      (vcardPayload r).length ≤ QR_CAPACITY_H ∧
      get_logo_image d r.logo_bytes = Except.ok lp ∧
      c = buildCard w r th lp := by
  unfold make_card at h
  split at h
  · exact absurd h (by simp)
  · rename_i th hth
    split at h
    · rename_i hcap
      split at h
      · exact absurd h (by simp)
      · rename_i lp hlp
        simp only [Except.ok.injEq] at h
        exact ⟨th, lp, hth, hcap, hlp, h.symm⟩
    · exact absurd h (by simp)

/-- The vertical offset of the phone row, as computed by lines 158–166. -/
theorem buildCard_yStart (w : WidthFn) (r : ContactData) (th : Theme)
    (lp : Option Img) :
    (buildCard w r th lp).yStart =
      max ((if r.org ≠ [] then (if r.title ≠ [] then 228 + 48 else 228) + 50
            else (if r.title ≠ [] then 228 + 48 else 228)) + 10) 335 := rfl

/-- The PNG stream of any rendered card carries the fixed 1200×660 canvas
dimensions. -/
theorem buildCard_bytes (w : WidthFn) (r : ContactData) (th : Theme)
    (lp : Option Img) :
    (buildCard w r th lp).bytes = pngSig ++ be32 1200 ++ be32 660 := by
  cases lp <;>
    · show pngEncode _ = _
      simp only [buildCard, draw_text_fit, pngEncode]
      split_ifs <;> rfl

/-! ## The gradient rows -/

/-- The row color is within 1 of the exact interpolation
`a + (b - a) * (y / h)` per channel. -/
theorem gradChannel_tolerance (a b y h : Nat) (hh : 0 < h) :
    |(gradChannel a b y h : ℚ) -
      ((a : ℚ) + ((b : ℚ) - (a : ℚ)) * (y : ℚ) / (h : ℚ))| ≤ 1 := by
  have hd : (0 : ℤ) < (h : ℤ) := by exact_mod_cast hh
  have hq0 : (0 : ℚ) < (h : ℚ) := by exact_mod_cast hh
  set A : ℤ := ((b : ℤ) - (a : ℤ)) * (y : ℤ) with hA
  have hfdiv : Int.fdiv A (h : ℤ) = A / (h : ℤ) := Int.fdiv_eq_ediv A hd.le
  have hdm : (h : ℤ) * (A / (h : ℤ)) + A % (h : ℤ) = A := Int.ediv_add_emod A (h : ℤ)
  have hmod1 : (0 : ℤ) ≤ A % (h : ℤ) := Int.emod_nonneg A (by omega)
  have hmod2 : A % (h : ℤ) < (h : ℤ) := Int.emod_lt_of_pos A hd
  have hdmQ : (h : ℚ) * ((A / (h : ℤ) : ℤ) : ℚ) + ((A % (h : ℤ) : ℤ) : ℚ)
      = ((A : ℤ) : ℚ) := by exact_mod_cast hdm
  have hAQ : ((A : ℤ) : ℚ) = ((b : ℚ) - (a : ℚ)) * (y : ℚ) := by
    rw [hA]; push_cast; ring
  have hgc : (gradChannel a b y h : ℚ) = (a : ℚ) + ((A / (h : ℤ) : ℤ) : ℚ) := by
    simp only [gradChannel, ← hA, hfdiv]
    push_cast
    ring
  have hstep : (gradChannel a b y h : ℚ) -
      ((a : ℚ) + ((b : ℚ) - (a : ℚ)) * (y : ℚ) / (h : ℚ))
      = -(((A % (h : ℤ) : ℤ) : ℚ) / (h : ℚ)) := by
    rw [hgc, ← hAQ]
    field_simp
    linarith [hdmQ]
  rw [hstep, abs_neg, abs_of_nonneg (by positivity)]
  rw [div_le_one hq0]
  calc ((A % (h : ℤ) : ℤ) : ℚ) ≤ (h : ℚ) := by exact_mod_cast hmod2.le
    _ ≤ (h : ℚ) := le_refl _

/-- The row color varies monotonically from the top stop toward the
bottom stop. -/
theorem gradChannel_mono (a b y1 y2 h : Nat) (hy : y1 ≤ y2) (hh : 0 < h) :
    (a ≤ b → gradChannel a b y1 h ≤ gradChannel a b y2 h) ∧
    (b ≤ a → gradChannel a b y2 h ≤ gradChannel a b y1 h) := by
  have hd : (0 : ℤ) < (h : ℤ) := by exact_mod_cast hh
  have hyz : (y1 : ℤ) ≤ (y2 : ℤ) := by exact_mod_cast hy
  constructor
  · intro hab
    have hab2 : (a : ℤ) ≤ (b : ℤ) := by exact_mod_cast hab
    unfold gradChannel
    rw [Int.fdiv_eq_ediv _ hd.le, Int.fdiv_eq_ediv _ hd.le]
    have hA : ((b : ℤ) - (a : ℤ)) * (y1 : ℤ) ≤ ((b : ℤ) - (a : ℤ)) * (y2 : ℤ) :=
      mul_le_mul_of_nonneg_left hyz (by omega)
    have := Int.ediv_le_ediv hd hA
    omega
  · intro hba
    have hba2 : (b : ℤ) ≤ (a : ℤ) := by exact_mod_cast hba
    unfold gradChannel
    rw [Int.fdiv_eq_ediv _ hd.le, Int.fdiv_eq_ediv _ hd.le]
    have hA : ((b : ℤ) - (a : ℤ)) * (y2 : ℤ) ≤ ((b : ℤ) - (a : ℤ)) * (y1 : ℤ) :=
      mul_le_mul_of_nonpos_left hyz (by omega)
    have := Int.ediv_le_ediv hd hA
    omega

/-- C6 (confirmed).  For every pair of gradient stops and rows
`y ≤ y2 < 660` of the background, each channel of the filled row color
(`int(c1[i] + (c2[i]-c1[i]) * y/H)`, lines 83–85) is within ±1 of the
exact interpolation `top[c] + (bottom[c]-top[c])*(y/H)`, and each
channel varies monotonically from the top stop toward the bottom stop
across rows. -/
theorem gradient_rows (c1 c2 : RGB) (y y2 : Nat) (hy : y ≤ y2)
    (_hlt : y2 < 660) :
    (|(gradChannel c1.r c2.r y 660 : ℚ) -
        ((c1.r : ℚ) + ((c2.r : ℚ) - (c1.r : ℚ)) * (y : ℚ) / 660)| ≤ 1 ∧
     |(gradChannel c1.g c2.g y 660 : ℚ) -
        ((c1.g : ℚ) + ((c2.g : ℚ) - (c1.g : ℚ)) * (y : ℚ) / 660)| ≤ 1 ∧
     |(gradChannel c1.b c2.b y 660 : ℚ) -
        ((c1.b : ℚ) + ((c2.b : ℚ) - (c1.b : ℚ)) * (y : ℚ) / 660)| ≤ 1) ∧
    ((c1.r ≤ c2.r → gradChannel c1.r c2.r y 660 ≤ gradChannel c1.r c2.r y2 660) ∧
     (c2.r ≤ c1.r → gradChannel c1.r c2.r y2 660 ≤ gradChannel c1.r c2.r y 660) ∧
     (c1.g ≤ c2.g → gradChannel c1.g c2.g y 660 ≤ gradChannel c1.g c2.g y2 660) ∧
     (c2.g ≤ c1.g → gradChannel c1.g c2.g y2 660 ≤ gradChannel c1.g c2.g y 660) ∧
     (c1.b ≤ c2.b → gradChannel c1.b c2.b y 660 ≤ gradChannel c1.b c2.b y2 660) ∧
     (c2.b ≤ c1.b → gradChannel c1.b c2.b y2 660 ≤ gradChannel c1.b c2.b y 660)) := by
  have t1 := gradChannel_tolerance c1.r c2.r y 660 (by omega)
  have t2 := gradChannel_tolerance c1.g c2.g y 660 (by omega)
  have t3 := gradChannel_tolerance c1.b c2.b y 660 (by omega)
  have m1 := gradChannel_mono c1.r c2.r y y2 660 hy (by omega)
  have m2 := gradChannel_mono c1.g c2.g y y2 660 hy (by omega)
  have m3 := gradChannel_mono c1.b c2.b y y2 660 hy (by omega)
  norm_num at t1 t2 t3
  exact ⟨⟨t1, t2, t3⟩, m1.1, m1.2, m2.1, m2.2, m3.1, m3.2⟩

/-- Witness for C6 at the ocean theme's stops and rows 0 and 659. -/
theorem gradient_rows_witness :
    (|(gradChannel 10 20 0 660 : ℚ) -
        ((10 : ℚ) + ((20 : ℚ) - (10 : ℚ)) * (0 : ℚ) / 660)| ≤ 1 ∧
     |(gradChannel 25 60 0 660 : ℚ) -
        ((25 : ℚ) + ((60 : ℚ) - (25 : ℚ)) * (0 : ℚ) / 660)| ≤ 1 ∧
     |(gradChannel 70 130 0 660 : ℚ) -
        ((70 : ℚ) + ((130 : ℚ) - (70 : ℚ)) * (0 : ℚ) / 660)| ≤ 1) ∧
    ((10 : Nat) ≤ 20 → gradChannel 10 20 0 660 ≤ gradChannel 10 20 659 660) := by
  have h := gradient_rows oceanTheme.bg1 oceanTheme.bg2 0 659 (by decide) (by decide)
  exact ⟨h.1, h.2.1⟩

/-- Witness for C10 at a concrete input where the text exceeds the width
budget (the draw still happens at the start size 18). -/
theorem draw_text_fit_at_floor_witness :
    645 < widthHuge (lit ("Ada")) 18 ∧
    draw_text_fit widthHuge (Img.gradient 1200 660 ⟨10,25,70⟩ ⟨20,60,130⟩)
        60 65 (lit ("Ada")) 645 18 ⟨255,255,255⟩ =
      Img.drawText (Img.gradient 1200 660 ⟨10,25,70⟩ ⟨20,60,130⟩) 60 65
        (lit ("Ada")) 18 ⟨255,255,255⟩ false :=
  ⟨by decide,
   draw_text_fit_at_floor widthHuge
     (Img.gradient 1200 660 ⟨10,25,70⟩ ⟨20,60,130⟩) 60 65 (lit ("Ada"))
     645 18 ⟨255,255,255⟩ (by decide)⟩

/-! ## C1: theme resolution -/

/-- C1 (amended).  The `"ocean"` fallback applies only when the theme key
is absent from the record (`data.get("theme", "ocean")`): in that case the
render is identical to one with `"ocean"` set explicitly.  When a theme id
is present but unknown to the catalog, `THEMES[...]` raises `KeyError`
instead of falling back. -/
theorem theme_resolution (w : WidthFn) (d : List Nat → Option Img)
    (r : ContactData) :
    (r.theme = none →
      make_card w d r = make_card w d { r with theme := some (lit ("ocean")) }) ∧
    (∀ k, r.theme = some k → themeLookup k = none →
      make_card w d r = Except.error RenderErr.keyError) := by
  constructor
  · intro hth
    cases r with
    | mk f l p e o t th lb =>
      simp only at hth
      subst hth
      rfl
  · intro k hth hlk
    unfold make_card
    rw [hth]
    show (match themeLookup k with
      | none => Except.error RenderErr.keyError
      | some theme =>
        if (vcardPayload r).length ≤ QR_CAPACITY_H then
          match get_logo_image d r.logo_bytes with
          | Except.error e => Except.error e
          | Except.ok logo_pil => Except.ok (buildCard w r theme logo_pil)
        else Except.error RenderErr.encodingError) = Except.error RenderErr.keyError
    rw [hlk]

/-- Witness for C1's amended theorem: the Ada record with the theme key
absent renders identically to the ocean theme set explicitly, and an
unknown id (`"sparkle"`) raises `KeyError`. -/
theorem theme_resolution_witness :
    make_card widthNarrow decodeOk recNoTheme =
      make_card widthNarrow decodeOk { recNoTheme with theme := some (lit ("ocean")) } ∧
    make_card widthNarrow decodeOk recUnknownTheme =
      Except.error RenderErr.keyError :=
  ⟨(theme_resolution widthNarrow decodeOk recNoTheme).1 rfl,
   (theme_resolution widthNarrow decodeOk recUnknownTheme).2 (lit ("sparkle")) rfl rfl⟩

/-- Counterexample to C1 as stated: a record whose `themeId` is set to the
unknown key `"sparkle"` does not resolve to the default theme — the render
raises `KeyError` and produces no output. -/
theorem theme_resolution_cex :
    recUnknownTheme.theme = some (lit ("sparkle")) ∧
    themeLookup (lit ("sparkle")) = none ∧
    make_card widthNarrow decodeOk recUnknownTheme =
      Except.error RenderErr.keyError :=
  ⟨rfl, rfl, rfl⟩

/-! ## C2: undecodable logo bytes -/

/-- C2 (amended).  Absent logo bytes and empty logo bytes are treated as
"no logo" (`if not logo_bytes`), but present undecodable bytes are not:
`Image.open` raises and — there being no handler in `get_logo_image` or
`make_card` — the whole render fails with a decode error instead of
proceeding logo-less. -/
theorem logo_decode_failure (w : WidthFn) (d : List Nat → Option Img)
    (r : ContactData) :
    (make_card w d { r with logo_bytes := some [] } =
      make_card w d { r with logo_bytes := none }) ∧
    (∀ bs, r.logo_bytes = some bs → bs ≠ [] → d bs = none →
      (themeLookup ((r.theme).getD (lit ("ocean")))).isSome = true →
      (vcardPayload r).length ≤ QR_CAPACITY_H →
      make_card w d r = Except.error RenderErr.decodeError) := by
  constructor
  · cases r with
    | mk f l p e o t th lb => rfl
  · intro bs hb hbe hd hth hcap
    obtain ⟨th, hth2⟩ := Option.isSome_iff_exists.mp hth
    unfold make_card
    rw [hth2]
    show (if (vcardPayload r).length ≤ QR_CAPACITY_H then
        match get_logo_image d r.logo_bytes with
        | Except.error e => Except.error e
        | Except.ok logo_pil => Except.ok (buildCard w r th logo_pil)
      else Except.error RenderErr.encodingError) = Except.error RenderErr.decodeError
    rw [if_pos hcap]
    simp only [get_logo_image, hb, if_neg hbe, hd]

/-- Witness for C2's amended theorem: empty logo bytes render identically
to absent ones, and corrupt bytes `[1,2,3]` under a failing decoder make
the render fail with a decode error. -/
theorem logo_decode_failure_witness :
    make_card widthNarrow decodeFail { recAda with logo_bytes := some [] } =
      make_card widthNarrow decodeFail { recAda with logo_bytes := none } ∧
    make_card widthNarrow decodeFail recBadLogo =
      Except.error RenderErr.decodeError :=
  ⟨(logo_decode_failure widthNarrow decodeFail recAda).1,
   (logo_decode_failure widthNarrow decodeFail recBadLogo).2 [1, 2, 3] rfl
     (by decide) rfl (by decide) (by decide)⟩

/-- Counterexample to C2 as stated: with undecodable logo bytes present,
the render does not behave as if the logo were absent — it fails with a
decode error, while the identical record without the logo renders
successfully. -/
theorem logo_decode_failure_cex :
    recBadLogo = { recAda with logo_bytes := some [1, 2, 3] } ∧
    make_card widthNarrow decodeFail recBadLogo =
      Except.error RenderErr.decodeError ∧
    make_card widthNarrow decodeFail recAda =
      Except.ok (buildCard widthNarrow recAda oceanTheme none) :=
  ⟨rfl, rfl, rfl⟩

/-! ## C7: the accent separator bar -/

/-- C7 (amended).  The separator bar starts at the left margin (60) at
rows 210–213, but its right edge is the left margin plus the name's width
budget plus 140 when no corner logo is present, and the left margin plus
the name's width budget (with no extra 140) when a logo is present — so
it spans exactly the name's shrink-to-fit budget only in the logo case. -/
theorem accent_bar_extent (w : WidthFn) (d : List Nat → Option Img)
    (r : ContactData) (c : Card) (h : make_card w d r = Except.ok c) :
    c.accentX0 = 60 ∧ c.accentY0 = 210 ∧ c.accentY1 = 213 ∧
    c.accentX1 = 60 + c.maxW + (if c.logoPasted then 0 else 140) := by
  obtain ⟨th, lp, -, -, -, rfl⟩ := make_card_ok_elim h
  cases lp with
  | none => exact ⟨rfl, rfl, rfl, rfl⟩
  | some i => exact ⟨rfl, rfl, rfl, rfl⟩

/-- Witness for C7's amended theorem at the Ada record (no logo). -/
theorem accent_bar_extent_witness :
    (buildCard widthNarrow recAda oceanTheme none).accentX0 = 60 ∧
    (buildCard widthNarrow recAda oceanTheme none).accentY0 = 210 ∧
    (buildCard widthNarrow recAda oceanTheme none).accentY1 = 213 ∧
    (buildCard widthNarrow recAda oceanTheme none).accentX1 =
      60 + (buildCard widthNarrow recAda oceanTheme none).maxW +
        (if (buildCard widthNarrow recAda oceanTheme none).logoPasted then 0
         else 140) :=
  accent_bar_extent widthNarrow decodeOk recAda _ rfl

/-- Counterexample to C7 as stated: for the Ada record (no corner logo)
the bar runs from x = 60 to x = 845 — 785 pixels — while the name's
shrink-to-fit width budget was 645, so the bar does not span the resolved
text column width. -/
theorem accent_bar_extent_cex :
    make_card widthNarrow decodeOk recAda =
      Except.ok (buildCard widthNarrow recAda oceanTheme none) ∧
    (buildCard widthNarrow recAda oceanTheme none).accentX0 = 60 ∧
    (buildCard widthNarrow recAda oceanTheme none).accentX1 = 845 ∧
    (buildCard widthNarrow recAda oceanTheme none).maxW = 645 ∧
    845 - 60 ≠ 645 :=
  ⟨rfl, rfl, rfl, rfl, by decide⟩

/-! ## C8: the phone/email block anchor -/

/-- C8 (confirmed).  The phone row starts at `max(y + 10, 335)`
(line 166): never above the fixed minimum offset 335, and exactly at 335
whenever title and organization are both empty. -/
theorem phone_row_anchored (w : WidthFn) (d : List Nat → Option Img)
    (r : ContactData) (c : Card) (h : make_card w d r = Except.ok c) :
    335 ≤ c.yStart ∧ (r.title = [] → r.org = [] → c.yStart = 335) := by
  obtain ⟨th, lp, -, -, -, rfl⟩ := make_card_ok_elim h
  constructor
  · rw [buildCard_yStart]
    exact Nat.le_max_right _ _
  · intro hT hO
    rw [buildCard_yStart, hT, hO]
    simp

/-- Witness for C8 at the Ada record (both optional fields empty). -/
theorem phone_row_anchored_witness :
    335 ≤ (buildCard widthNarrow recAda oceanTheme none).yStart ∧
    (recAda.title = [] → recAda.org = [] →
      (buildCard widthNarrow recAda oceanTheme none).yStart = 335) :=
  phone_row_anchored widthNarrow decodeOk recAda _ rfl

/-! ## C9: logo absent means nothing changes -/

/-- C9 (confirmed).  With no logo bytes, the embed step returns the QR
bitmap exactly as the encoder produced it (resized to 400×400), no corner
logo is pasted, the text start stays at the left margin 60, and the text
column width keeps its full 645 budget. -/
theorem no_logo_no_effect (w : WidthFn) (d : List Nat → Option Img)
    (r : ContactData) (c : Card) (hL : r.logo_bytes = none)
    (h : make_card w d r = Except.ok c) :
    ∃ th, themeLookup ((r.theme).getD (lit ("ocean"))) = some th ∧
      c.qr_img = Img.resize (Img.qrRender (vcardPayload r) th.accent) 400 400 ∧
      c.logoPasted = false ∧ c.tx = 60 ∧ c.maxW = 645 := by
  obtain ⟨th, lp, hth, -, hlp, rfl⟩ := make_card_ok_elim h
  rw [hL] at hlp
  have hnone : lp = none := by
    simpa [get_logo_image] using hlp.symm
  subst hnone
  exact ⟨th, hth, rfl, rfl, rfl, rfl⟩

/-- Witness for C9 at the Ada record. -/
theorem no_logo_no_effect_witness :
    ∃ th, themeLookup ((recAda.theme).getD (lit ("ocean"))) = some th ∧
      (buildCard widthNarrow recAda oceanTheme none).qr_img =
        Img.resize (Img.qrRender (vcardPayload recAda) th.accent) 400 400 ∧
      (buildCard widthNarrow recAda oceanTheme none).logoPasted = false ∧
      (buildCard widthNarrow recAda oceanTheme none).tx = 60 ∧
      (buildCard widthNarrow recAda oceanTheme none).maxW = 645 :=
  no_logo_no_effect widthNarrow decodeOk recAda _ rfl rfl

/-! ## C4: valid records render at the fixed canvas size -/

/-- C4 (amended).  For a record whose theme id is known (or unset) and
whose logo is absent, empty, or decodable, and — additionally to the
claim — whose payload is within the QR capacity at error-correction H,
the render succeeds and returns non-empty PNG bytes whose header carries
the fixed 1200×660 canvas dimensions.  (Pre-validation of the required
fields does not bound `email`/`org`/`title` enough to guarantee the
capacity bound; see the counterexample.) -/
theorem render_valid_succeeds (w : WidthFn) (d : List Nat → Option Img)
    (r : ContactData)
    (hTheme : (themeLookup ((r.theme).getD (lit ("ocean")))).isSome = true)
    (hLogo : ∀ bs, r.logo_bytes = some bs → bs ≠ [] → (d bs).isSome = true)
    (hCap : (vcardPayload r).length ≤ QR_CAPACITY_H) :
    ∃ c, make_card w d r = Except.ok c ∧ c.width = 1200 ∧ c.height = 660 ∧
      c.bytes ≠ [] ∧ pngDims c.bytes = some (1200, 660) := by
  obtain ⟨th, hth⟩ := Option.isSome_iff_exists.mp hTheme
  have hlp : ∃ lp, get_logo_image d r.logo_bytes = Except.ok lp := by
    cases hb : r.logo_bytes with
    | none => exact ⟨none, rfl⟩
    | some bs =>
      by_cases hbe : bs = []
      · subst hbe
        exact ⟨none, rfl⟩
      · obtain ⟨img, himg⟩ := Option.isSome_iff_exists.mp (hLogo bs hb hbe)
        refine ⟨some img, ?_⟩
        simp [get_logo_image, hbe, himg]
  obtain ⟨lp, hlp⟩ := hlp
  refine ⟨buildCard w r th lp, ?_, rfl, rfl, ?_, ?_⟩
  · unfold make_card
    rw [hth]
    show (if (vcardPayload r).length ≤ QR_CAPACITY_H then
        match get_logo_image d r.logo_bytes with
        | Except.error e => Except.error e
        | Except.ok logo_pil => Except.ok (buildCard w r th logo_pil)
      else Except.error RenderErr.encodingError) = _
    rw [if_pos hCap, hlp]
  · rw [buildCard_bytes]
    decide
  · rw [buildCard_bytes]
    decide

/-- Witness for C4's amended theorem at the Ada record. -/
theorem render_valid_succeeds_witness :
    ∃ c, make_card widthNarrow decodeOk recAda = Except.ok c ∧
      c.width = 1200 ∧ c.height = 660 ∧ c.bytes ≠ [] ∧
      pngDims c.bytes = some (1200, 660) :=
  render_valid_succeeds widthNarrow decodeOk recAda (by decide)
    (fun bs hb _ => by simp [recAda] at hb) (by decide)

/-- Counterexample to C4 as stated: a record whose required fields all
pass the upstream validators (`valid_name`/`valid_phone`/`valid_email`),
with a known theme and no logo, whose 1205-character — yet syntactically
valid — email drives the payload past the QR capacity: the render raises
instead of succeeding. -/
theorem render_valid_succeeds_cex :
    valid_name recOverflow.first = true ∧
    valid_name recOverflow.last = true ∧
    valid_phone recOverflow.phone = true ∧
    valid_email recOverflow.email = true ∧
    recOverflow.theme = some (lit ("ocean")) ∧
    recOverflow.logo_bytes = none ∧
    make_card widthNarrow decodeOk recOverflow =
      Except.error RenderErr.encodingError := by
  refine ⟨by decide, by decide, by decide, ?_, rfl, rfl, ?_⟩
  · set_option maxRecDepth 20000 in decide
  · have hcap : ¬ ((vcardPayload recOverflow).length ≤ QR_CAPACITY_H) := by
      set_option maxRecDepth 20000 in decide
    unfold make_card
    show (if (vcardPayload recOverflow).length ≤ QR_CAPACITY_H then
        match get_logo_image decodeOk recOverflow.logo_bytes with
        | Except.error e => Except.error e
        | Except.ok logo_pil =>
          Except.ok (buildCard widthNarrow recOverflow oceanTheme logo_pil)
      else Except.error RenderErr.encodingError) = _
    rw [if_neg hcap]

/-! ## C3: the payload structure and its round-trip -/

/-- A character absent from both halves is absent from their
concatenation. -/
theorem nmem_app {c : Char} {a b : Str} (ha : c ∉ a) (hb : c ∉ b) :
    c ∉ a ++ b := fun h => (List.mem_append.mp h).elim ha hb

/-- C3, case: `org` and `title` both empty. -/
theorem vcard_roundtrip_case_ee (d : ContactData)
    (hf : '\n' ∉ d.first) (hl : '\n' ∉ d.last) (hp : '\n' ∉ d.phone)
    (he : '\n' ∉ d.email) (hsf : ';' ∉ d.first) (hsl : ';' ∉ d.last)
    (hO : d.org = []) (hT : d.title = []) :
    splitOnChar ('\n') (vcardPayload d) =
      [lit ("BEGIN:VCARD"), lit ("VERSION:3.0"),
       lit ("N:") ++ d.last ++ lit (";") ++ d.first ++ lit (";;;"),
       lit ("FN:") ++ d.first ++ lit (" ") ++ d.last,
       lit ("TEL;TYPE=CELL:") ++ d.phone, lit ("EMAIL:") ++ d.email,
       lit ("END:VCARD")] ∧
    ([] : Str) ∉ splitOnChar ('\n') (vcardPayload d) ∧
    parseVcard (vcardPayload d) =
      some ⟨d.first, d.last, d.phone, d.email, none, none⟩ := by
  have hlines : vcardLines d =
      [lit ("BEGIN:VCARD"), lit ("VERSION:3.0"),
       lit ("N:") ++ d.last ++ lit (";") ++ d.first ++ lit (";;;"),
       lit ("FN:") ++ d.first ++ lit (" ") ++ d.last,
       lit ("TEL;TYPE=CELL:") ++ d.phone, lit ("EMAIL:") ++ d.email,
       lit ("END:VCARD")] := by
    simp only [vcardLines, vcardRawLines, hO, hT]
    rfl
  have hnl : ∀ l ∈ vcardLines d, '\n' ∉ l := by
    rw [hlines]
    intro l hmem
    simp only [List.mem_cons, List.not_mem_nil, or_false] at hmem
    rcases hmem with rfl | rfl | rfl | rfl | rfl | rfl | rfl
    exacts [by decide, by decide,
      nmem_app (nmem_app (nmem_app (nmem_app (by decide) hl) (by decide)) hf)
        (by decide),
      nmem_app (nmem_app (nmem_app (by decide) hf) (by decide)) hl,
      nmem_app (by decide) hp, nmem_app (by decide) he, by decide]
  have hsplit : splitOnChar ('\n') (vcardPayload d) = vcardLines d :=
    splitOnChar_joinLines ('\n') (vcardLines d) (by rw [hlines]; simp) hnl
  rw [hlines] at hsplit
  refine ⟨hsplit, ?_, ?_⟩
  · rw [hsplit]
    intro hmem
    simp only [List.mem_cons, List.not_mem_nil, or_false] at hmem
    rcases hmem with h | h | h | h | h | h | h
    · exact absurd h (by decide)
    · exact absurd h (by decide)
    · simp [lit_nl] at h
    · simp [lit_fn] at h
    · simp [lit_tel] at h
    · simp [lit_email] at h
    · exact absurd h (by decide)
  · have hsc : splitOnChar (';')
        (d.last ++ lit (";") ++ d.first ++ lit (";;;")) =
        [d.last, d.first, [], [], []] := by
      have h1 : d.last ++ lit (";") ++ d.first ++ lit (";;;") =
          d.last ++ ';' :: (d.first ++ [';', ';', ';']) := by
        simp [lit_semi, lit_semi3, List.append_assoc]
      rw [h1, splitOnChar_append (';') d.last _ hsl,
        splitOnChar_append (';') d.first _ hsf]
      rfl
    simp only [parseVcard, vcardPayload] at hsplit ⊢
    rw [hsplit]
    have hN : findLine (lit ("N:"))
        [lit ("BEGIN:VCARD"), lit ("VERSION:3.0"),
         lit ("N:") ++ d.last ++ lit (";") ++ d.first ++ lit (";;;"),
         lit ("FN:") ++ d.first ++ lit (" ") ++ d.last,
         lit ("TEL;TYPE=CELL:") ++ d.phone, lit ("EMAIL:") ++ d.email,
         lit ("END:VCARD")] =
        some (d.last ++ lit (";") ++ d.first ++ lit (";;;")) := rfl
    have hTel : findLine (lit ("TEL;TYPE=CELL:"))
        [lit ("BEGIN:VCARD"), lit ("VERSION:3.0"),
         lit ("N:") ++ d.last ++ lit (";") ++ d.first ++ lit (";;;"),
         lit ("FN:") ++ d.first ++ lit (" ") ++ d.last,
         lit ("TEL;TYPE=CELL:") ++ d.phone, lit ("EMAIL:") ++ d.email,
         lit ("END:VCARD")] = some d.phone := rfl
    have hEm : findLine (lit ("EMAIL:"))
        [lit ("BEGIN:VCARD"), lit ("VERSION:3.0"),
         lit ("N:") ++ d.last ++ lit (";") ++ d.first ++ lit (";;;"),
         lit ("FN:") ++ d.first ++ lit (" ") ++ d.last,
         lit ("TEL;TYPE=CELL:") ++ d.phone, lit ("EMAIL:") ++ d.email,
         lit ("END:VCARD")] = some d.email := rfl
    rw [hN, hTel, hEm]
    simp only [hsc]
    rfl

/-- C3, case: `org` empty, `title` non-empty. -/
theorem vcard_roundtrip_case_et (d : ContactData)
    (hf : '\n' ∉ d.first) (hl : '\n' ∉ d.last) (hp : '\n' ∉ d.phone)
    (he : '\n' ∉ d.email) (ht : '\n' ∉ d.title)
    (hsf : ';' ∉ d.first) (hsl : ';' ∉ d.last)
    (hO : d.org = []) (hT : d.title ≠ []) :
    splitOnChar ('\n') (vcardPayload d) =
      [lit ("BEGIN:VCARD"), lit ("VERSION:3.0"),
       lit ("N:") ++ d.last ++ lit (";") ++ d.first ++ lit (";;;"),
       lit ("FN:") ++ d.first ++ lit (" ") ++ d.last,
       lit ("TITLE:") ++ d.title,
       lit ("TEL;TYPE=CELL:") ++ d.phone, lit ("EMAIL:") ++ d.email,
       lit ("END:VCARD")] ∧
    ([] : Str) ∉ splitOnChar ('\n') (vcardPayload d) ∧
    parseVcard (vcardPayload d) =
      some ⟨d.first, d.last, d.phone, d.email, none, some d.title⟩ := by
  have hlines : vcardLines d =
      [lit ("BEGIN:VCARD"), lit ("VERSION:3.0"),
       lit ("N:") ++ d.last ++ lit (";") ++ d.first ++ lit (";;;"),
       lit ("FN:") ++ d.first ++ lit (" ") ++ d.last,
       lit ("TITLE:") ++ d.title,
       lit ("TEL;TYPE=CELL:") ++ d.phone, lit ("EMAIL:") ++ d.email,
       lit ("END:VCARD")] := by
    simp only [vcardLines, vcardRawLines, hO, if_pos hT]
    rfl
  have hnl : ∀ l ∈ vcardLines d, '\n' ∉ l := by
    rw [hlines]
    intro l hmem
    simp only [List.mem_cons, List.not_mem_nil, or_false] at hmem
    rcases hmem with rfl | rfl | rfl | rfl | rfl | rfl | rfl | rfl
    exacts [by decide, by decide,
      nmem_app (nmem_app (nmem_app (nmem_app (by decide) hl) (by decide)) hf)
        (by decide),
      nmem_app (nmem_app (nmem_app (by decide) hf) (by decide)) hl,
      nmem_app (by decide) ht,
      nmem_app (by decide) hp, nmem_app (by decide) he, by decide]
  have hsplit : splitOnChar ('\n') (vcardPayload d) = vcardLines d :=
    splitOnChar_joinLines ('\n') (vcardLines d) (by rw [hlines]; simp) hnl
  rw [hlines] at hsplit
  refine ⟨hsplit, ?_, ?_⟩
  · rw [hsplit]
    intro hmem
    simp only [List.mem_cons, List.not_mem_nil, or_false] at hmem
    rcases hmem with h | h | h | h | h | h | h | h
    · exact absurd h (by decide)
    · exact absurd h (by decide)
    · simp [lit_nl] at h
    · simp [lit_fn] at h
    · simp [lit_title] at h
    · simp [lit_tel] at h
    · simp [lit_email] at h
    · exact absurd h (by decide)
  · have hsc : splitOnChar (';')
        (d.last ++ lit (";") ++ d.first ++ lit (";;;")) =
        [d.last, d.first, [], [], []] := by
      have h1 : d.last ++ lit (";") ++ d.first ++ lit (";;;") =
          d.last ++ ';' :: (d.first ++ [';', ';', ';']) := by
        simp [lit_semi, lit_semi3, List.append_assoc]
      rw [h1, splitOnChar_append (';') d.last _ hsl,
        splitOnChar_append (';') d.first _ hsf]
      rfl
    simp only [parseVcard, vcardPayload] at hsplit ⊢
    rw [hsplit]
    have hN : findLine (lit ("N:"))
        [lit ("BEGIN:VCARD"), lit ("VERSION:3.0"),
         lit ("N:") ++ d.last ++ lit (";") ++ d.first ++ lit (";;;"),
         lit ("FN:") ++ d.first ++ lit (" ") ++ d.last,
         lit ("TITLE:") ++ d.title,
         lit ("TEL;TYPE=CELL:") ++ d.phone, lit ("EMAIL:") ++ d.email,
         lit ("END:VCARD")] =
        some (d.last ++ lit (";") ++ d.first ++ lit (";;;")) := rfl
    have hTel : findLine (lit ("TEL;TYPE=CELL:"))
        [lit ("BEGIN:VCARD"), lit ("VERSION:3.0"),
         lit ("N:") ++ d.last ++ lit (";") ++ d.first ++ lit (";;;"),
         lit ("FN:") ++ d.first ++ lit (" ") ++ d.last,
         lit ("TITLE:") ++ d.title,
         lit ("TEL;TYPE=CELL:") ++ d.phone, lit ("EMAIL:") ++ d.email,
         lit ("END:VCARD")] = some d.phone := rfl
    have hEm : findLine (lit ("EMAIL:"))
        [lit ("BEGIN:VCARD"), lit ("VERSION:3.0"),
         lit ("N:") ++ d.last ++ lit (";") ++ d.first ++ lit (";;;"),
         lit ("FN:") ++ d.first ++ lit (" ") ++ d.last,
         lit ("TITLE:") ++ d.title,
         lit ("TEL;TYPE=CELL:") ++ d.phone, lit ("EMAIL:") ++ d.email,
         lit ("END:VCARD")] = some d.email := rfl
    rw [hN, hTel, hEm]
    simp only [hsc]
    rfl

/-- C3, case: `org` non-empty, `title` empty. -/
theorem vcard_roundtrip_case_te (d : ContactData)
    (hf : '\n' ∉ d.first) (hl : '\n' ∉ d.last) (hp : '\n' ∉ d.phone)
    (he : '\n' ∉ d.email) (ho : '\n' ∉ d.org)
    (hsf : ';' ∉ d.first) (hsl : ';' ∉ d.last)
    (hO : d.org ≠ []) (hT : d.title = []) :
    splitOnChar ('\n') (vcardPayload d) =
      [lit ("BEGIN:VCARD"), lit ("VERSION:3.0"),
       lit ("N:") ++ d.last ++ lit (";") ++ d.first ++ lit (";;;"),
       lit ("FN:") ++ d.first ++ lit (" ") ++ d.last,
       lit ("ORG:") ++ d.org,
       lit ("TEL;TYPE=CELL:") ++ d.phone, lit ("EMAIL:") ++ d.email,
       lit ("END:VCARD")] ∧
    ([] : Str) ∉ splitOnChar ('\n') (vcardPayload d) ∧
    parseVcard (vcardPayload d) =
      some ⟨d.first, d.last, d.phone, d.email, some d.org, none⟩ := by
  have hlines : vcardLines d =
      [lit ("BEGIN:VCARD"), lit ("VERSION:3.0"),
       lit ("N:") ++ d.last ++ lit (";") ++ d.first ++ lit (";;;"),
       lit ("FN:") ++ d.first ++ lit (" ") ++ d.last,
       lit ("ORG:") ++ d.org,
       lit ("TEL;TYPE=CELL:") ++ d.phone, lit ("EMAIL:") ++ d.email,
       lit ("END:VCARD")] := by
    simp only [vcardLines, vcardRawLines, hT, if_pos hO]
    rfl
  have hnl : ∀ l ∈ vcardLines d, '\n' ∉ l := by
    rw [hlines]
    intro l hmem
    simp only [List.mem_cons, List.not_mem_nil, or_false] at hmem
    rcases hmem with rfl | rfl | rfl | rfl | rfl | rfl | rfl | rfl
    exacts [by decide, by decide,
      nmem_app (nmem_app (nmem_app (nmem_app (by decide) hl) (by decide)) hf)
        (by decide),
      nmem_app (nmem_app (nmem_app (by decide) hf) (by decide)) hl,
      nmem_app (by decide) ho,
      nmem_app (by decide) hp, nmem_app (by decide) he, by decide]
  have hsplit : splitOnChar ('\n') (vcardPayload d) = vcardLines d :=
    splitOnChar_joinLines ('\n') (vcardLines d) (by rw [hlines]; simp) hnl
  rw [hlines] at hsplit
  refine ⟨hsplit, ?_, ?_⟩
  · rw [hsplit]
    intro hmem
    simp only [List.mem_cons, List.not_mem_nil, or_false] at hmem
    rcases hmem with h | h | h | h | h | h | h | h
    · exact absurd h (by decide)
    · exact absurd h (by decide)
    · simp [lit_nl] at h
    · simp [lit_fn] at h
    · simp [lit_org] at h
    · simp [lit_tel] at h
    · simp [lit_email] at h
    · exact absurd h (by decide)
  · have hsc : splitOnChar (';')
        (d.last ++ lit (";") ++ d.first ++ lit (";;;")) =
        [d.last, d.first, [], [], []] := by
      have h1 : d.last ++ lit (";") ++ d.first ++ lit (";;;") =
          d.last ++ ';' :: (d.first ++ [';', ';', ';']) := by
        simp [lit_semi, lit_semi3, List.append_assoc]
      rw [h1, splitOnChar_append (';') d.last _ hsl,
        splitOnChar_append (';') d.first _ hsf]
      rfl
    simp only [parseVcard, vcardPayload] at hsplit ⊢
    rw [hsplit]
    have hN : findLine (lit ("N:"))
        [lit ("BEGIN:VCARD"), lit ("VERSION:3.0"),
         lit ("N:") ++ d.last ++ lit (";") ++ d.first ++ lit (";;;"),
         lit ("FN:") ++ d.first ++ lit (" ") ++ d.last,
         lit ("ORG:") ++ d.org,
         lit ("TEL;TYPE=CELL:") ++ d.phone, lit ("EMAIL:") ++ d.email,
         lit ("END:VCARD")] =
        some (d.last ++ lit (";") ++ d.first ++ lit (";;;")) := rfl
    have hTel : findLine (lit ("TEL;TYPE=CELL:"))
        [lit ("BEGIN:VCARD"), lit ("VERSION:3.0"),
         lit ("N:") ++ d.last ++ lit (";") ++ d.first ++ lit (";;;"),
         lit ("FN:") ++ d.first ++ lit (" ") ++ d.last,
         lit ("ORG:") ++ d.org,
         lit ("TEL;TYPE=CELL:") ++ d.phone, lit ("EMAIL:") ++ d.email,
         lit ("END:VCARD")] = some d.phone := rfl
    have hEm : findLine (lit ("EMAIL:"))
        [lit ("BEGIN:VCARD"), lit ("VERSION:3.0"),
         lit ("N:") ++ d.last ++ lit (";") ++ d.first ++ lit (";;;"),
         lit ("FN:") ++ d.first ++ lit (" ") ++ d.last,
         lit ("ORG:") ++ d.org,
         lit ("TEL;TYPE=CELL:") ++ d.phone, lit ("EMAIL:") ++ d.email,
         lit ("END:VCARD")] = some d.email := rfl
    rw [hN, hTel, hEm]
    simp only [hsc]
    rfl

/-- C3, case: `org` and `title` both non-empty. -/
theorem vcard_roundtrip_case_tt (d : ContactData)
    (hf : '\n' ∉ d.first) (hl : '\n' ∉ d.last) (hp : '\n' ∉ d.phone)
    (he : '\n' ∉ d.email) (ho : '\n' ∉ d.org) (ht : '\n' ∉ d.title)
    (hsf : ';' ∉ d.first) (hsl : ';' ∉ d.last)
    (hO : d.org ≠ []) (hT : d.title ≠ []) :
    splitOnChar ('\n') (vcardPayload d) =
      [lit ("BEGIN:VCARD"), lit ("VERSION:3.0"),
       lit ("N:") ++ d.last ++ lit (";") ++ d.first ++ lit (";;;"),
       lit ("FN:") ++ d.first ++ lit (" ") ++ d.last,
       lit ("ORG:") ++ d.org, lit ("TITLE:") ++ d.title,
       lit ("TEL;TYPE=CELL:") ++ d.phone, lit ("EMAIL:") ++ d.email,
       lit ("END:VCARD")] ∧
    ([] : Str) ∉ splitOnChar ('\n') (vcardPayload d) ∧
    parseVcard (vcardPayload d) =
      some ⟨d.first, d.last, d.phone, d.email, some d.org, some d.title⟩ := by
  have hlines : vcardLines d =
      [lit ("BEGIN:VCARD"), lit ("VERSION:3.0"),
       lit ("N:") ++ d.last ++ lit (";") ++ d.first ++ lit (";;;"),
       lit ("FN:") ++ d.first ++ lit (" ") ++ d.last,
       lit ("ORG:") ++ d.org, lit ("TITLE:") ++ d.title,
       lit ("TEL;TYPE=CELL:") ++ d.phone, lit ("EMAIL:") ++ d.email,
       lit ("END:VCARD")] := by
    simp only [vcardLines, vcardRawLines, if_pos hO, if_pos hT]
    rfl
  have hnl : ∀ l ∈ vcardLines d, '\n' ∉ l := by
    rw [hlines]
    intro l hmem
    simp only [List.mem_cons, List.not_mem_nil, or_false] at hmem
    rcases hmem with rfl | rfl | rfl | rfl | rfl | rfl | rfl | rfl | rfl
    exacts [by decide, by decide,
      nmem_app (nmem_app (nmem_app (nmem_app (by decide) hl) (by decide)) hf)
        (by decide),
      nmem_app (nmem_app (nmem_app (by decide) hf) (by decide)) hl,
      nmem_app (by decide) ho, nmem_app (by decide) ht,
      nmem_app (by decide) hp, nmem_app (by decide) he, by decide]
  have hsplit : splitOnChar ('\n') (vcardPayload d) = vcardLines d :=
    splitOnChar_joinLines ('\n') (vcardLines d) (by rw [hlines]; simp) hnl
  rw [hlines] at hsplit
  refine ⟨hsplit, ?_, ?_⟩
  · rw [hsplit]
    intro hmem
    simp only [List.mem_cons, List.not_mem_nil, or_false] at hmem
    rcases hmem with h | h | h | h | h | h | h | h | h
    · exact absurd h (by decide)
    · exact absurd h (by decide)
    · simp [lit_nl] at h
    · simp [lit_fn] at h
    · simp [lit_org] at h
    · simp [lit_title] at h
    · simp [lit_tel] at h
    · simp [lit_email] at h
    · exact absurd h (by decide)
  · have hsc : splitOnChar (';')
        (d.last ++ lit (";") ++ d.first ++ lit (";;;")) =
        [d.last, d.first, [], [], []] := by
      have h1 : d.last ++ lit (";") ++ d.first ++ lit (";;;") =
          d.last ++ ';' :: (d.first ++ [';', ';', ';']) := by
        simp [lit_semi, lit_semi3, List.append_assoc]
      rw [h1, splitOnChar_append (';') d.last _ hsl,
        splitOnChar_append (';') d.first _ hsf]
      rfl
    simp only [parseVcard, vcardPayload] at hsplit ⊢
    rw [hsplit]
    have hN : findLine (lit ("N:"))
        [lit ("BEGIN:VCARD"), lit ("VERSION:3.0"),
         lit ("N:") ++ d.last ++ lit (";") ++ d.first ++ lit (";;;"),
         lit ("FN:") ++ d.first ++ lit (" ") ++ d.last,
         lit ("ORG:") ++ d.org, lit ("TITLE:") ++ d.title,
         lit ("TEL;TYPE=CELL:") ++ d.phone, lit ("EMAIL:") ++ d.email,
         lit ("END:VCARD")] =
        some (d.last ++ lit (";") ++ d.first ++ lit (";;;")) := rfl
    have hTel : findLine (lit ("TEL;TYPE=CELL:"))
        [lit ("BEGIN:VCARD"), lit ("VERSION:3.0"),
         lit ("N:") ++ d.last ++ lit (";") ++ d.first ++ lit (";;;"),
         lit ("FN:") ++ d.first ++ lit (" ") ++ d.last,
         lit ("ORG:") ++ d.org, lit ("TITLE:") ++ d.title,
         lit ("TEL;TYPE=CELL:") ++ d.phone, lit ("EMAIL:") ++ d.email,
         lit ("END:VCARD")] = some d.phone := rfl
    have hEm : findLine (lit ("EMAIL:"))
        [lit ("BEGIN:VCARD"), lit ("VERSION:3.0"),
         lit ("N:") ++ d.last ++ lit (";") ++ d.first ++ lit (";;;"),
         lit ("FN:") ++ d.first ++ lit (" ") ++ d.last,
         lit ("ORG:") ++ d.org, lit ("TITLE:") ++ d.title,
         lit ("TEL;TYPE=CELL:") ++ d.phone, lit ("EMAIL:") ++ d.email,
         lit ("END:VCARD")] = some d.email := rfl
    rw [hN, hTel, hEm]
    simp only [hsc]
    rfl

/-- C3 (amended).  For records whose field values contain no newline and
whose names contain no semicolon — the upstream validators guarantee this
for `first`/`last`/`phone`/`email`, but nothing constrains `org`/`title`,
hence the extra hypotheses — the payload is exactly the newline-join of:
begin marker, version marker, structured-name line, formatted-name line,
organization line (present iff `org` is non-empty), title line (present
iff `title` is non-empty), phone line, email line, end marker, with no
blank lines; and parsing the payload recovers `first`, `last`, `phone`
and `email` identical to the record, with `org`/`title` recovered when
non-empty and simply absent when empty. -/
theorem vcard_payload_roundtrip (d : ContactData)
    (hf : '\n' ∉ d.first) (hl : '\n' ∉ d.last) (hp : '\n' ∉ d.phone)
    (he : '\n' ∉ d.email) (ho : '\n' ∉ d.org) (ht : '\n' ∉ d.title)
    (hsf : ';' ∉ d.first) (hsl : ';' ∉ d.last) :
    splitOnChar ('\n') (vcardPayload d) =
      [lit ("BEGIN:VCARD"), lit ("VERSION:3.0"),
       lit ("N:") ++ d.last ++ lit (";") ++ d.first ++ lit (";;;"),
       lit ("FN:") ++ d.first ++ lit (" ") ++ d.last] ++
      (if d.org ≠ [] then [lit ("ORG:") ++ d.org] else []) ++
      (if d.title ≠ [] then [lit ("TITLE:") ++ d.title] else []) ++
      [lit ("TEL;TYPE=CELL:") ++ d.phone, lit ("EMAIL:") ++ d.email,
       lit ("END:VCARD")] ∧
    ([] : Str) ∉ splitOnChar ('\n') (vcardPayload d) ∧
    parseVcard (vcardPayload d) =
      some ⟨d.first, d.last, d.phone, d.email,
            if d.org ≠ [] then some d.org else none,
            if d.title ≠ [] then some d.title else none⟩ := by
  by_cases hO : d.org = []
  · by_cases hT : d.title = []
    · obtain ⟨h1, h2, h3⟩ := vcard_roundtrip_case_ee d hf hl hp he hsf hsl hO hT
      have ho2 : ¬ (d.org ≠ []) := by simp [hO]
      have ht2 : ¬ (d.title ≠ []) := by simp [hT]
      simp only [if_neg ho2, if_neg ht2]
      exact ⟨by rw [h1]; simp, h2, h3⟩
    · obtain ⟨h1, h2, h3⟩ := vcard_roundtrip_case_et d hf hl hp he ht hsf hsl hO hT
      have ho2 : ¬ (d.org ≠ []) := by simp [hO]
      simp only [if_neg ho2, if_pos hT]
      exact ⟨by rw [h1]; simp, h2, h3⟩
  · by_cases hT : d.title = []
    · obtain ⟨h1, h2, h3⟩ := vcard_roundtrip_case_te d hf hl hp he ho hsf hsl hO hT
      have ht2 : ¬ (d.title ≠ []) := by simp [hT]
      simp only [if_pos hO, if_neg ht2]
      exact ⟨by rw [h1]; simp, h2, h3⟩
    · obtain ⟨h1, h2, h3⟩ := vcard_roundtrip_case_tt d hf hl hp he ho ht hsf hsl hO hT
      simp only [if_pos hO, if_pos hT]
      exact ⟨by rw [h1]; simp, h2, h3⟩

/-- Witness for C3's amended theorem: parsing the payload of the Ada
record recovers every field, with the empty `org`/`title` absent. -/
theorem vcard_payload_roundtrip_witness :
    parseVcard (vcardPayload recAda) =
      some ⟨lit ("Ada"), lit ("Lovelace"), lit ("+919876543210"),
            lit ("ada@example.com"), none, none⟩ :=
  (vcard_payload_roundtrip recAda (by decide) (by decide) (by decide)
    (by decide) (by decide) (by decide) (by decide) (by decide)).2.2

/-- Counterexample to C3 as stated: nothing validates `org`/`title`
content, and a title containing a newline and a fake `ORG:` line makes
the consumer recover an organization even though the record's `org` is
empty (the claim requires it to be simply absent). -/
theorem vcard_payload_roundtrip_cex :
    recInjected.org = [] ∧
    (parseVcard (vcardPayload recInjected)).map (fun p => p.org) =
      some (some (lit ("hack"))) := by
  exact ⟨rfl, by decide⟩
